import Mathlib

/-!
Verification of the sentiment-classification training core (`models.py`):
vocabulary indexer, n-gram feature extractors, linear classifiers
(perceptron, logistic regression) and their online trainers.

Python floats are modelled as exact rationals (perceptron) and reals
(logistic regression, which uses `math.exp`). The mutable indexer, weight
list and training-example list are modelled by explicit state passing.
-/

/-- Modelled from the spec: the Vocabulary Indexer of `utils.py` (which is not
under `src/`): a growable bidirectional mapping from feature strings to dense
integer indices `0..k-1`, assigned in first-seen order. -/
structure Indexer where
  objs : List String
deriving DecidableEq, Repr

/-- Modelled from the spec: `size()` is the number of known feature strings. -/
def Indexer.size (ix : Indexer) : Nat := ix.objs.length

/-- Modelled from the spec: `contains(key)` membership test. -/
def Indexer.contains (ix : Indexer) (k : String) : Bool := ix.objs.contains k

/-- Modelled from the spec: `index_of(key)` fails (LookupError-equivalent) if the
key is absent; the failure case is modelled as `none`. -/
def Indexer.index_of (ix : Indexer) (k : String) : Option Nat :=
  ix.objs.findIdx? (fun s => s == k)

/-- Modelled from the spec: `add_and_get_index(key)` returns the existing index if
present, else assigns the next contiguous integer. -/
def Indexer.add_and_get_index (ix : Indexer) (k : String) : Nat × Indexer :=
  match ix.index_of k with
  | some i => (i, ix)
  | none => (ix.objs.length, ⟨ix.objs ++ [k]⟩)

/-- Python `Counter[int]` with `features[k] = 1`: an association list keyed by
feature index, keys kept in first-insertion order, value overwritten in place. -/
def setOne (fs : List (Nat × Nat)) (k : Nat) : List (Nat × Nat) :=
  if fs.any (fun p => p.1 == k) then
    fs.map (fun p => if p.1 == k then (p.1, 1) else p)
  else fs ++ [(k, 1)]

/-- The three extractor variants of `models.py`
(`UnigramFeatureExtractor`, `BigramFeatureExtractor`, `BetterFeatureExtractor`). -/
inductive ExtractorKind where
  | unigram : ExtractorKind
  | bigram : ExtractorKind
  | better : ExtractorKind
deriving DecidableEq, Repr

/-- Python `str.lower()`, modelled character-wise (`Char.toLower` agrees with it
on the ASCII tokens handled here). -/
def lowerStr (w : String) : String := ⟨w.data.map Char.toLower⟩

/-- The n-grams each extractor's loop enumerates: unigrams lowercase each word;
bigram/trigram join consecutive words with a space and lowercase the result, for
`i` in Python `range(len(sentence)-1)` resp. `range(len(sentence)-2)` (empty when
the bound is nonpositive, matching truncated subtraction). -/
def grams (k : ExtractorKind) (sentence : List String) : List String :=
  match k with
  | .unigram => sentence.map (fun w => lowerStr w)
  | .bigram =>
      (List.range (sentence.length - 1)).map
        (fun i => lowerStr (sentence.getD i "" ++ " " ++ sentence.getD (i + 1) ""))
  | .better =>
      (List.range (sentence.length - 2)).map
        (fun i => lowerStr (sentence.getD i "" ++ " " ++ sentence.getD (i + 1) ""
                    ++ " " ++ sentence.getD (i + 2) ""))

/-- One loop iteration of `extract_features`, common to the three extractors:
if the indexer contains the gram, record its index with value 1 (the `index_of`
call is guarded by `contains`, so its failure branch is dead); otherwise insert
it only in growth mode. -/
def extractStep (addToIndexer : Bool) (st : List (Nat × Nat) × Indexer)
    (g : String) : List (Nat × Nat) × Indexer :=
  if st.2.contains g then
    match st.2.index_of g with
    | some i => (setOne st.1 i, st.2)
    | none => st
  else if addToIndexer then
    let r := st.2.add_and_get_index g
    (setOne st.1 r.1, r.2)
  else st

/-- `extract_features(sentence, add_to_indexer)` of the extractor of kind `k`
whose indexer is `ix`: returns the sparse feature vector and the (possibly
grown) indexer. -/
def extract_features (k : ExtractorKind) (ix : Indexer) (sentence : List String)
    (addToIndexer : Bool) : List (Nat × Nat) × Indexer :=
  (grams k sentence).foldl (extractStep addToIndexer) ([], ix)

/-- A training example: `SentimentExample` with `words` and `label`. -/
structure SentimentExample where
  words : List String
  label : Nat
deriving DecidableEq, Repr

/-- `PerceptronClassifier.predict`: inference-mode extraction, then the
accumulating loop `predicted_val += features[f] * weight_vector[f]`, then
`1 if predicted_val > 0 else 0`. An out-of-range weight read (a fatal misuse
per the spec, impossible through the trainers) is modelled as reading 0. -/
def perceptron_predict (w : List ℚ) (k : ExtractorKind) (ix : Indexer)
    (sentence : List String) : Nat :=
  let features := (extract_features k ix sentence false).1
  let predicted_val := features.foldl (fun acc p => acc + (p.2 : ℚ) * w.getD p.1 0) 0
  if predicted_val > 0 then 1 else 0

/-- Specification-side score: `Σ features[i] * weights[i]` as a literal sum. -/
def dotProduct (w : List ℚ) (fs : List (Nat × Nat)) : ℚ :=
  (fs.map (fun p => (p.2 : ℚ) * w.getD p.1 0)).sum

/-- `LogisticRegressionClassifier.p_1_x`: the dot-product loop followed by
`math.exp(s) / (1 + math.exp(s))`. -/
noncomputable def p_1_x (w : List ℝ) (k : ExtractorKind) (ix : Indexer)
    (sentence : List String) : ℝ :=
  let features := (extract_features k ix sentence false).1
  let s := features.foldl (fun acc p => acc + (p.2 : ℝ) * w.getD p.1 0) 0
  Real.exp s / (1 + Real.exp s)

/-- `LogisticRegressionClassifier.p_1_neg_x`: the same dot-product loop followed
by the distinct formula `1 / (1 + math.exp(s))`. -/
noncomputable def p_1_neg_x (w : List ℝ) (k : ExtractorKind) (ix : Indexer)
    (sentence : List String) : ℝ :=
  let features := (extract_features k ix sentence false).1
  let s := features.foldl (fun acc p => acc + (p.2 : ℝ) * w.getD p.1 0) 0
  1 / (1 + Real.exp s)

/-- Specification-side score for the logistic classifier. -/
noncomputable def lr_score (w : List ℝ) (k : ExtractorKind) (ix : Indexer)
    (sentence : List String) : ℝ :=
  ((extract_features k ix sentence false).1.map
    (fun p => (p.2 : ℝ) * w.getD p.1 0)).sum

/-- `LogisticRegressionClassifier.predict`: `1 if p_1_x(sentence) > 0.5 else 0`. -/
noncomputable def lr_predict (w : List ℝ) (k : ExtractorKind) (ix : Indexer)
    (sentence : List String) : Nat :=
  if p_1_x w k ix sentence > 0.5 then 1 else 0

/-- Modelled from the spec: Python's globally seeded PRNG
(`random.seed` / `random.shuffle`), library code outside `src/`. The spec relies
only on the shuffle being a deterministic, seed-reproducible permutation of the
list, modelled as a rotation driven by a linear congruential step. -/
def rngNext (s : Nat) : Nat := (1103515245 * s + 12345) % 2147483648

/-- Modelled from the spec: `random.shuffle` reorders the given list in place
(modelled by returning the reordered list) and advances the generator state. -/
def shuffle {α : Type} (s : Nat) (l : List α) : List α × Nat :=
  let s' := rngNext s
  (l.rotate s', s')

/-- Mutable state of a perceptron training run: the classifier's weight vector
and the extractor's indexer (aliased by the classifier). -/
structure PerceptronState where
  w : List ℚ
  ix : Indexer
deriving DecidableEq, Repr

/-- `alpha = 0.05` in `train_perceptron`. -/
def perceptron_alpha : ℚ := 1 / 20

/-- The body of `train_perceptron`'s inner loop for one example: skip if the
current prediction equals the label; else extract in growth mode, pad the weight
vector with zeros up to the indexer size, append one further zero (the
unconditional `append(0)` after the padding loop), then apply the
mistake-driven update `weights[f] += alpha * count` (label 1) or
`weights[f] -= alpha * count` (label 0); any other label only prints. -/
def perceptronExampleStep (k : ExtractorKind) (s : PerceptronState)
    (ex : SentimentExample) : PerceptronState :=
  if ex.label == perceptron_predict s.w k s.ix ex.words then s
  else
    let fi := extract_features k s.ix ex.words true
    let w0 := s.w ++ List.replicate (fi.2.size - s.w.length) (0 : ℚ)
    let w1 := w0 ++ [0]
    let w2 :=
      if ex.label == 1 then
        fi.1.foldl (fun w p => w.set p.1 (w.getD p.1 0 + perceptron_alpha * (p.2 : ℚ))) w1
      else if ex.label == 0 then
        fi.1.foldl (fun w p => w.set p.1 (w.getD p.1 0 - perceptron_alpha * (p.2 : ℚ))) w1
      else w1
    ⟨w2, fi.2⟩

/-- A whole training run's state: classifier state, the caller's example list
(shuffled in place), and the PRNG state. -/
structure PerceptronRun where
  state : PerceptronState
  exs : List SentimentExample
  rng : Nat
deriving DecidableEq, Repr

/-- One epoch of `train_perceptron`: shuffle the example list in place, then
fold the per-example step over it. -/
def perceptronEpoch (k : ExtractorKind) (r : PerceptronRun) : PerceptronRun :=
  let p := shuffle r.rng r.exs
  ⟨p.1.foldl (perceptronExampleStep k) r.state, p.1, p.2⟩

/-- `train_perceptron(train_exs, feat_extractor)`: seeds the PRNG with the fixed
constant 10 (discarding the ambient generator state `rng0`), zero-initializes
one weight per current indexer entry, and runs 50 epochs. -/
def train_perceptron (rng0 : Nat) (k : ExtractorKind)
    (exs : List SentimentExample) (ix : Indexer) : PerceptronRun :=
  let _ := rng0
  let rng := 10
  let w : List ℚ := List.replicate ix.size 0
  (List.range 50).foldl (fun r _ => perceptronEpoch k r) ⟨⟨w, ix⟩, exs, rng⟩

/-- Mutable state of a logistic-regression training run. -/
structure LRState where
  w : List ℝ
  ix : Indexer

/-- `alpha = 0.1` in `train_logistic_regression`. -/
noncomputable def lr_alpha : ℝ := 1 / 10

/-- The body of `train_logistic_regression`'s inner loop for one example:
always extract in growth mode, pad the weight vector with zeros up to the
indexer size and append one further zero; then, for label 1, skip if the hard
prediction is already 1, else for each active feature do
`weights[f] += alpha * (1 - p_1_x(words))` — `p_1_x` reads the classifier's
current (aliased, partially updated) weight list, so it is recomputed on every
loop iteration; symmetrically for the other labels with `p_1_neg_x`. -/
noncomputable def lrExampleStep (k : ExtractorKind) (s : LRState)
    (ex : SentimentExample) : LRState :=
  let fi := extract_features k s.ix ex.words true
  let w0 := s.w ++ List.replicate (fi.2.size - s.w.length) (0 : ℝ)
  let w1 := w0 ++ [0]
  if ex.label == 1 then
    if lr_predict w1 k fi.2 ex.words == 1 then ⟨w1, fi.2⟩
    else
      ⟨fi.1.foldl
        (fun w p => w.set p.1 (w.getD p.1 0 + lr_alpha * (1 - p_1_x w k fi.2 ex.words)))
        w1, fi.2⟩
  else
    if lr_predict w1 k fi.2 ex.words == 0 then ⟨w1, fi.2⟩
    else
      ⟨fi.1.foldl
        (fun w p => w.set p.1 (w.getD p.1 0 - lr_alpha * (1 - p_1_neg_x w k fi.2 ex.words)))
        w1, fi.2⟩

/-- A whole logistic-regression training run's state. -/
structure LRRun where
  state : LRState
  exs : List SentimentExample
  rng : Nat

/-- One epoch of `train_logistic_regression`. -/
noncomputable def lrEpoch (k : ExtractorKind) (r : LRRun) : LRRun :=
  let p := shuffle r.rng r.exs
  ⟨p.1.foldl (lrExampleStep k) r.state, p.1, p.2⟩

/-- `train_logistic_regression(train_exs, feat_extractor)`: seeds the PRNG with
the fixed constant 2324 (discarding the ambient generator state `rng0`),
zero-initializes one weight per current indexer entry, and runs 15 epochs. -/
noncomputable def train_logistic_regression (rng0 : Nat) (k : ExtractorKind)
    (exs : List SentimentExample) (ix : Indexer) : LRRun :=
  let _ := rng0
  let rng := 2324
  let w : List ℝ := List.replicate ix.size 0
  (List.range 15).foldl (fun r _ => lrEpoch k r) ⟨⟨w, ix⟩, exs, rng⟩

/-- The configuration bundle consumed by `train_model`. -/
structure Args where
  model : String
  feats : String
deriving DecidableEq, Repr

/-- The classifier objects `train_model` can return. -/
inductive TrainedModel where
  | trivial : TrainedModel
  | perceptron : PerceptronRun → TrainedModel
  | lr : LRRun → TrainedModel

/-- `train_model(args, train_exs, dev_exs)`: the first if-chain builds the
feature extractor (`None` for TRIVIAL; otherwise dispatch on `feats`, raising
for an unrecognized value), the second dispatches on `model` (raising for an
unrecognized value). Raised exceptions are modelled as `Except.error`; passing
the `None` extractor to a trainer (dead code: it would raise an
AttributeError inside the trainer) is modelled as an error as well. -/
noncomputable def train_model (rng0 : Nat) (args : Args)
    (exs : List SentimentExample) : Except String TrainedModel :=
  let fe : Except String (Option ExtractorKind) :=
    if args.model = "TRIVIAL" then .ok none
    else if args.feats = "UNIGRAM" then .ok (some .unigram)
    else if args.feats = "BIGRAM" then .ok (some .bigram)
    else if args.feats = "BETTER" then .ok (some .better)
    else .error "Pass in UNIGRAM, BIGRAM, or BETTER to run the appropriate system"
  match fe with
  | .error e => .error e
  | .ok fe =>
    if args.model = "TRIVIAL" then .ok .trivial
    else if args.model = "PERCEPTRON" then
      match fe with
      | some k => .ok (.perceptron (train_perceptron rng0 k exs ⟨[]⟩))
      | none => .error "AttributeError"
    else if args.model = "LR" then
      match fe with
      | some k => .ok (.lr (train_logistic_regression rng0 k exs ⟨[]⟩))
      | none => .error "AttributeError"
    else .error "Pass in TRIVIAL, PERCEPTRON, or LR to run the appropriate system"

/-- Specification-side mapping from a `feats` configuration string to the
extractor variant it selects. -/
def feats_kind (f : String) : Option ExtractorKind :=
  if f = "UNIGRAM" then some .unigram
  else if f = "BIGRAM" then some .bigram
  else if f = "BETTER" then some .better
  else none

/-! ## General helper lemmas -/

theorem foldl_inv {σ α : Type _} (P : σ → Prop) (step : σ → α → σ)
    (h : ∀ s a, P s → P (step s a)) :
    ∀ (l : List α) (s : σ), P s → P (l.foldl step s) := by
  intro l
  induction l with
  | nil => intro s hs; exact hs
  | cons a t ih => intro s hs; exact ih _ (h s a hs)

theorem foldl_add_map {M α : Type _} [AddCommMonoid M] (f : α → M) :
    ∀ (l : List α) (a : M), l.foldl (fun acc x => acc + f x) a = a + (l.map f).sum := by
  intro l
  induction l with
  | nil => intro a; simp
  | cons x t ih => intro a; simp [ih, add_assoc]

theorem foldl_set_length {β : Type _} (l : List (Nat × Nat))
    (f : List β → Nat × Nat → β) :
    ∀ w : List β, (l.foldl (fun w p => w.set p.1 (f w p)) w).length = w.length := by
  induction l with
  | nil => intro w; rfl
  | cons a t ih => intro w; simp [ih, List.length_set]

theorem contains_findIdx {l : List String} {g : String} (h : l.contains g = true) :
    (l.findIdx? (fun s => s == g)).isSome = true := by
  obtain ⟨a, ha, hb⟩ := List.contains_iff_exists_mem_beq.mp h
  have := List.findIdx?_eq_some_of_exists (p := fun s => s == g)
    ⟨a, ha, by simp [eq_of_beq hb]⟩
  simp [this]

theorem setOne_mem {fs : List (Nat × Nat)} {k : Nat} {p : Nat × Nat}
    (h : p ∈ setOne fs k) : p.1 = k ∨ p ∈ fs := by
  unfold setOne at h
  by_cases hany : fs.any (fun q => q.1 == k) = true
  · rw [if_pos hany] at h
    obtain ⟨q, hq, hpq⟩ := List.mem_map.mp h
    by_cases hk : (q.1 == k) = true
    · rw [if_pos hk] at hpq
      left
      have hqk : q.1 = k := by simpa using hk
      rw [← hpq]
      exact hqk
    · rw [if_neg hk] at hpq
      right
      rw [← hpq]
      exact hq
  · rw [if_neg hany] at h
    rcases List.mem_append.mp h with hl | hr
    · right; exact hl
    · left
      rw [List.mem_singleton.mp hr]

theorem extract_false_aux (gl : List String) :
    ∀ (fs : List (Nat × Nat)) (ix : Indexer),
      ((gl.foldl (extractStep false) (fs, ix)).2 = ix) ∧
      (∀ p ∈ (gl.foldl (extractStep false) (fs, ix)).1,
        p ∈ fs ∨ ∃ g, ix.contains g = true ∧ ix.index_of g = some p.1) := by
  induction gl with
  | nil => intro fs ix; exact ⟨rfl, fun p hp => Or.inl hp⟩
  | cons g t ih =>
    intro fs ix
    rw [List.foldl_cons]
    by_cases hc : ix.contains g = true
    · cases hio : ix.index_of g with
      | none =>
        have hstep : extractStep false (fs, ix) g = (fs, ix) := by
          simp [extractStep, hc, hio]
        rw [hstep]
        exact ih fs ix
      | some i =>
        have hstep : extractStep false (fs, ix) g = (setOne fs i, ix) := by
          simp [extractStep, hc, hio]
        rw [hstep]
        refine ⟨(ih _ ix).1, fun p hp => ?_⟩
        rcases (ih _ ix).2 p hp with hin | hex
        · rcases setOne_mem hin with hk | hfs
          · exact Or.inr ⟨g, hc, by rw [hio, hk]⟩
          · exact Or.inl hfs
        · exact Or.inr hex
    · have hstep : extractStep false (fs, ix) g = (fs, ix) := by
        simp [extractStep, hc]
      rw [hstep]
      exact ih fs ix

/-! ## Claim theorems -/

/-- C5: on `["I","love","it"]` in growth mode from an empty indexer, the unigram
extractor yields exactly 3 features of value 1, the bigram extractor exactly the
features `"i love"` and `"love it"`, and the trigram extractor exactly
`"i love it"`; on any 1-token sentence the bigram and trigram extractors yield
the empty feature vector (and leave the indexer unchanged). -/
theorem extractor_arity :
    (extract_features .unigram ⟨[]⟩ ["I", "love", "it"] true
      = ([(0, 1), (1, 1), (2, 1)], ⟨["i", "love", "it"]⟩)) ∧
    (extract_features .bigram ⟨[]⟩ ["I", "love", "it"] true
      = ([(0, 1), (1, 1)], ⟨["i love", "love it"]⟩)) ∧
    (extract_features .better ⟨[]⟩ ["I", "love", "it"] true
      = ([(0, 1)], ⟨["i love it"]⟩)) ∧
    (∀ (t : String) (ix : Indexer) (b : Bool),
      extract_features .bigram ix [t] b = ([], ix) ∧
      extract_features .better ix [t] b = ([], ix)) :=
  ⟨by decide, by decide, by decide, fun t ix b => ⟨rfl, rfl⟩⟩

/-- C7: in inference mode (`add_to_indexer = False`) every extractor leaves the
indexer unchanged, every feature in the output is the index of a gram the
indexer already contains (unknown n-grams are dropped), and `index_of` cannot
fail on a contained key, so no lookup error can escape. -/
theorem inference_mode_frame (k : ExtractorKind) (ix : Indexer)
    (sentence : List String) :
    (extract_features k ix sentence false).2 = ix ∧
    (∀ p ∈ (extract_features k ix sentence false).1,
      ∃ g, ix.contains g = true ∧ ix.index_of g = some p.1) ∧
    (∀ g, ix.contains g = true → (ix.index_of g).isSome = true) := by
  have haux := extract_false_aux (grams k sentence) [] ix
  refine ⟨haux.1, fun p hp => ?_, fun g hg => contains_findIdx hg⟩
  rcases haux.2 p hp with hin | hex
  · exact absurd hin (List.not_mem_nil p)
  · exact hex

/-- C7 witness: a concrete instantiation of `inference_mode_frame`. -/
theorem inference_mode_frame_witness :
    ((⟨["a"]⟩ : Indexer).index_of "a").isSome = true :=
  (inference_mode_frame .unigram ⟨["a"]⟩ []).2.2 "a" (by decide)

/-- C6: `PerceptronClassifier.predict` equals the sign test on the dot product
of the inference-mode sparse feature vector with the weight vector — 1 exactly
when the score is positive — and a tie (score 0) yields class 0. The hypothesis
keeps every read of the weight list in range, the only case in which the Python
code returns at all. -/
theorem perceptron_predict_sign (w : List ℚ) (k : ExtractorKind) (ix : Indexer)
    (sentence : List String)
    (h : ∀ p ∈ (extract_features k ix sentence false).1, p.1 < w.length) :
    perceptron_predict w k ix sentence =
      (if 0 < dotProduct w (extract_features k ix sentence false).1 then 1 else 0) ∧
    (dotProduct w (extract_features k ix sentence false).1 = 0 →
      perceptron_predict w k ix sentence = 0) := by
  have hfold : perceptron_predict w k ix sentence =
      (if 0 < dotProduct w (extract_features k ix sentence false).1 then 1 else 0) := by
    unfold perceptron_predict dotProduct
    simp only [foldl_add_map, zero_add]
  refine ⟨hfold, fun h0 => ?_⟩
  rw [hfold, h0]
  simp

/-- C6 witness: a concrete tie resolving to class 0. -/
theorem perceptron_predict_sign_witness :
    perceptron_predict [0] .unigram ⟨["a"]⟩ ["a"] = 0 :=
  (perceptron_predict_sign [0] .unigram ⟨["a"]⟩ ["a"] (by decide)).2 (by
    have hx : (extract_features .unigram ⟨["a"]⟩ ["a"] false).1 = [(0, 1)] := by decide
    rw [hx]
    norm_num [dotProduct])

/-- C8: `p_1_x` computes `exp(score)/(1+exp(score))`, `p_1_neg_x` computes the
distinct formula `1/(1+exp(score))` from the identical score, and over exact
real arithmetic the two values sum to 1 for every sentence and weight vector. -/
theorem p1x_p1negx_complementary (w : List ℝ) (k : ExtractorKind) (ix : Indexer)
    (sentence : List String) :
    p_1_x w k ix sentence =
      Real.exp (lr_score w k ix sentence) / (1 + Real.exp (lr_score w k ix sentence)) ∧
    p_1_neg_x w k ix sentence = 1 / (1 + Real.exp (lr_score w k ix sentence)) ∧
    p_1_x w k ix sentence + p_1_neg_x w k ix sentence = 1 := by
  have hx : p_1_x w k ix sentence =
      Real.exp (lr_score w k ix sentence) / (1 + Real.exp (lr_score w k ix sentence)) := by
    unfold p_1_x lr_score
    simp only [foldl_add_map, zero_add]
  have hn : p_1_neg_x w k ix sentence = 1 / (1 + Real.exp (lr_score w k ix sentence)) := by
    unfold p_1_neg_x lr_score
    simp only [foldl_add_map, zero_add]
  refine ⟨hx, hn, ?_⟩
  rw [hx, hn]
  have he : (0 : ℝ) < Real.exp (lr_score w k ix sentence) := Real.exp_pos _
  have hne : (1 : ℝ) + Real.exp (lr_score w k ix sentence) ≠ 0 := by positivity
  field_simp
  ring

/-- C9: training is deterministic — the trainers reset the pseudo-random
generator to a fixed seed (10 resp. 2324) as their first action, so two runs on
equal inputs under any two ambient generator states return identical runs
(equal weight vectors, equal indexer contents, equal final example lists). -/
theorem training_deterministic (r1 r2 : Nat) (k : ExtractorKind)
    (exs : List SentimentExample) (ix : Indexer) :
    train_perceptron r1 k exs ix = train_perceptron r2 k exs ix ∧
    train_logistic_regression r1 k exs ix = train_logistic_regression r2 k exs ix :=
  ⟨rfl, rfl⟩

/-- C10: on the empty token sequence every extractor returns the empty feature
vector (for either mode, leaving the indexer as is), the perceptron scores 0 and
so predicts class 0 for every weight vector, and `p_1_x` is exactly 1/2, so the
logistic classifier also predicts 0 for every weight vector. -/
theorem empty_sentence_defaults :
    (∀ (k : ExtractorKind) (ix : Indexer) (b : Bool),
      extract_features k ix [] b = ([], ix)) ∧
    (∀ (w : List ℚ) (k : ExtractorKind) (ix : Indexer),
      perceptron_predict w k ix [] = 0) ∧
    (∀ (w : List ℝ) (k : ExtractorKind) (ix : Indexer),
      p_1_x w k ix [] = 1 / 2) ∧
    (∀ (w : List ℝ) (k : ExtractorKind) (ix : Indexer),
      lr_predict w k ix [] = 0) := by
  have hext : ∀ (k : ExtractorKind) (ix : Indexer) (b : Bool),
      extract_features k ix [] b = ([], ix) := by
    intro k ix b
    cases k <;> rfl
  have hp : ∀ (w : List ℝ) (k : ExtractorKind) (ix : Indexer), p_1_x w k ix [] = 1 / 2 := by
    intro w k ix
    unfold p_1_x
    rw [hext]
    norm_num [Real.exp_zero]
  refine ⟨hext, fun w k ix => ?_, hp, fun w k ix => ?_⟩
  · unfold perceptron_predict
    rw [hext]
    simp
  · unfold lr_predict
    rw [hp]
    norm_num

/-! ## Weight-length invariant helpers (C1) -/

theorem perceptronStep_preserves (k : ExtractorKind) (s : PerceptronState)
    (ex : SentimentExample) (h : s.ix.size ≤ s.w.length) :
    (perceptronExampleStep k s ex).ix.size ≤ (perceptronExampleStep k s ex).w.length := by
  simp only [perceptronExampleStep]
  split
  · exact h
  · split
    · rw [foldl_set_length]
      simp only [List.length_append, List.length_replicate, List.length_singleton]
      omega
    · split
      · rw [foldl_set_length]
        simp only [List.length_append, List.length_replicate, List.length_singleton]
        omega
      · simp only [List.length_append, List.length_replicate, List.length_singleton]
        omega

theorem lrStep_preserves (k : ExtractorKind) (s : LRState) (ex : SentimentExample) :
    (lrExampleStep k s ex).ix.size ≤ (lrExampleStep k s ex).w.length := by
  simp only [lrExampleStep]
  split
  · split
    · simp only [List.length_append, List.length_replicate, List.length_singleton]
      omega
    · rw [foldl_set_length]
      simp only [List.length_append, List.length_replicate, List.length_singleton]
      omega
  · split
    · simp only [List.length_append, List.length_replicate, List.length_singleton]
      omega
    · rw [foldl_set_length]
      simp only [List.length_append, List.length_replicate, List.length_singleton]
      omega

theorem perceptronEpoch_preserves (k : ExtractorKind) (r : PerceptronRun)
    (h : r.state.ix.size ≤ r.state.w.length) :
    (perceptronEpoch k r).state.ix.size ≤ (perceptronEpoch k r).state.w.length :=
  foldl_inv (fun s : PerceptronState => s.ix.size ≤ s.w.length)
    (perceptronExampleStep k) (fun s ex hs => perceptronStep_preserves k s ex hs)
    _ _ h

theorem lrEpoch_preserves (k : ExtractorKind) (r : LRRun)
    (h : r.state.ix.size ≤ r.state.w.length) :
    (lrEpoch k r).state.ix.size ≤ (lrEpoch k r).state.w.length :=
  foldl_inv (fun s : LRState => s.ix.size ≤ s.w.length)
    (lrExampleStep k) (fun s ex _ => lrStep_preserves k s ex) _ _ h

theorem train_perceptron_inv (rng0 : Nat) (k : ExtractorKind)
    (exs : List SentimentExample) (ix : Indexer) :
    (train_perceptron rng0 k exs ix).state.ix.size ≤
      (train_perceptron rng0 k exs ix).state.w.length :=
  foldl_inv (fun r : PerceptronRun => r.state.ix.size ≤ r.state.w.length)
    (fun r _ => perceptronEpoch k r)
    (fun r _ hr => perceptronEpoch_preserves k r hr)
    (List.range 50) ⟨⟨List.replicate ix.size 0, ix⟩, exs, 10⟩
    (by simp [Indexer.size])

theorem train_lr_inv (rng0 : Nat) (k : ExtractorKind)
    (exs : List SentimentExample) (ix : Indexer) :
    (train_logistic_regression rng0 k exs ix).state.ix.size ≤
      (train_logistic_regression rng0 k exs ix).state.w.length :=
  foldl_inv (fun r : LRRun => r.state.ix.size ≤ r.state.w.length)
    (fun r _ => lrEpoch k r)
    (fun r _ hr => lrEpoch_preserves k r hr)
    (List.range 15) ⟨⟨List.replicate ix.size 0, ix⟩, exs, 2324⟩
    (by simp [Indexer.size])

/-- C1 counterexample: after the very first perceptron update (empty indexer,
one 1-token positive example) the weight vector has length 2 while the indexer
has size 1 — the unconditional extra `append(0)` after the padding loop breaks
the claimed equality `len(weights) == indexer.size()`. -/
theorem weight_length_equality_fails :
    ¬ (perceptronExampleStep .unigram ⟨[], ⟨[]⟩⟩ ⟨["a"], 1⟩).w.length
        = (perceptronExampleStep .unigram ⟨[], ⟨[]⟩⟩ ⟨["a"], 1⟩).ix.size := by
  decide

/-- C1 (amended): at the end of every per-example update of either trainer the
weight vector length is at least the indexer size (never less) — for the
perceptron step assuming the invariant held before (its skip branch changes
nothing), unconditionally for the logistic-regression step, and at the end of
both full training runs. Equality does not hold because of the extra appended
zero (see the counterexample). -/
theorem weight_length_invariant (k : ExtractorKind) :
    (∀ (s : PerceptronState) (ex : SentimentExample), s.ix.size ≤ s.w.length →
      (perceptronExampleStep k s ex).ix.size ≤ (perceptronExampleStep k s ex).w.length) ∧
    (∀ (s : LRState) (ex : SentimentExample),
      (lrExampleStep k s ex).ix.size ≤ (lrExampleStep k s ex).w.length) ∧
    (∀ (rng0 : Nat) (exs : List SentimentExample) (ix : Indexer),
      (train_perceptron rng0 k exs ix).state.ix.size ≤
        (train_perceptron rng0 k exs ix).state.w.length ∧
      (train_logistic_regression rng0 k exs ix).state.ix.size ≤
        (train_logistic_regression rng0 k exs ix).state.w.length) :=
  ⟨fun s ex h => perceptronStep_preserves k s ex h,
   fun s ex => lrStep_preserves k s ex,
   fun rng0 exs ix => ⟨train_perceptron_inv rng0 k exs ix, train_lr_inv rng0 k exs ix⟩⟩

/-- C1 witness: the amended invariant applied to a concrete state. -/
theorem weight_length_invariant_witness :
    (perceptronExampleStep .unigram ⟨[], ⟨[]⟩⟩ ⟨["b"], 1⟩).ix.size ≤
      (perceptronExampleStep .unigram ⟨[], ⟨[]⟩⟩ ⟨["b"], 1⟩).w.length :=
  (weight_length_invariant .unigram).1 ⟨[], ⟨[]⟩⟩ ⟨["b"], 1⟩ (by decide)

/-! ## Example-list permutation helpers (C4) -/

theorem perceptronEpoch_perm (k : ExtractorKind) (r : PerceptronRun) :
    (perceptronEpoch k r).exs.Perm r.exs :=
  List.rotate_perm r.exs (rngNext r.rng)

theorem lrEpoch_perm (k : ExtractorKind) (r : LRRun) :
    (lrEpoch k r).exs.Perm r.exs :=
  List.rotate_perm r.exs (rngNext r.rng)

/-- C4 counterexample: the trainers shuffle the caller's example list in place;
a concrete perceptron run returns the two examples in the opposite order from
the caller's list, so the list is reordered, not left intact. -/
theorem trainer_reorders_callers_list :
    (train_perceptron 0 .unigram [⟨["x"], 0⟩, ⟨["y"], 0⟩] ⟨[]⟩).exs
      ≠ [⟨["x"], 0⟩, ⟨["y"], 0⟩] := by
  decide

/-- C4 (amended): the trainers never mutate the examples themselves — the final
example list of either trainer is a permutation of the caller's list (same
examples, each unchanged) — but the list itself is shuffled in place between
epochs (see the counterexample), not a private copy. -/
theorem trainers_permute_examples (rng0 : Nat) (k : ExtractorKind)
    (exs : List SentimentExample) (ix : Indexer) :
    (train_perceptron rng0 k exs ix).exs.Perm exs ∧
    (train_logistic_regression rng0 k exs ix).exs.Perm exs :=
  ⟨foldl_inv (fun r : PerceptronRun => r.exs.Perm exs) (fun r _ => perceptronEpoch k r)
      (fun r _ hr => (perceptronEpoch_perm k r).trans hr)
      (List.range 50) ⟨⟨List.replicate ix.size 0, ix⟩, exs, 10⟩ (List.Perm.refl exs),
   foldl_inv (fun r : LRRun => r.exs.Perm exs) (fun r _ => lrEpoch k r)
      (fun r _ hr => (lrEpoch_perm k r).trans hr)
      (List.range 15) ⟨⟨List.replicate ix.size 0, ix⟩, exs, 2324⟩ (List.Perm.refl exs)⟩

/-- C3 counterexample: with `model = "TRIVIAL"` the first dispatch chain never
examines `feats`, so the unrecognized value `"XYZ"` raises nothing and a
trivial classifier is returned. -/
theorem train_model_trivial_skips_feats_check :
    train_model 0 ⟨"TRIVIAL", "XYZ"⟩ [] = Except.ok TrainedModel.trivial ∧
    "XYZ" ∉ ["UNIGRAM", "BIGRAM", "BETTER"] := by
  constructor
  · rfl
  · decide

/-- C3 (amended): `train_model` raises a configuration error exactly when the
model value is unrecognized, or the model is not TRIVIAL and the feats value is
unrecognized — for `model = "TRIVIAL"` the feats value is never validated.
Otherwise it returns the classifier matching the configuration. -/
theorem train_model_config (rng0 : Nat) (args : Args) (exs : List SentimentExample) :
    ((∃ e, train_model rng0 args exs = Except.error e) ↔
      args.model ∉ ["TRIVIAL", "PERCEPTRON", "LR"] ∨
        (args.model ≠ "TRIVIAL" ∧ args.feats ∉ ["UNIGRAM", "BIGRAM", "BETTER"])) ∧
    (args.model = "TRIVIAL" →
      train_model rng0 args exs = Except.ok TrainedModel.trivial) ∧
    (∀ kk : ExtractorKind, args.model = "PERCEPTRON" → feats_kind args.feats = some kk →
      train_model rng0 args exs =
        Except.ok (TrainedModel.perceptron (train_perceptron rng0 kk exs ⟨[]⟩))) ∧
    (∀ kk : ExtractorKind, args.model = "LR" → feats_kind args.feats = some kk →
      train_model rng0 args exs =
        Except.ok (TrainedModel.lr (train_logistic_regression rng0 kk exs ⟨[]⟩))) := by
  obtain ⟨m, f⟩ := args
  by_cases h1 : m = "TRIVIAL" <;> by_cases h2 : m = "PERCEPTRON" <;> by_cases h3 : m = "LR" <;>
    by_cases h4 : f = "UNIGRAM" <;> by_cases h5 : f = "BIGRAM" <;> by_cases h6 : f = "BETTER" <;>
      simp_all [train_model, feats_kind]

/-- C3 witness: a recognized configuration constructs the matching classifier
without raising. -/
theorem train_model_config_witness :
    train_model 0 ⟨"PERCEPTRON", "UNIGRAM"⟩ [] =
      Except.ok (TrainedModel.perceptron (train_perceptron 0 .unigram [] ⟨[]⟩)) :=
  (train_model_config 0 ⟨"PERCEPTRON", "UNIGRAM"⟩ []).2.2.1 .unigram rfl rfl

/-! ## Logistic-regression update helpers (C2) -/

theorem extract_ab_inference :
    (extract_features .unigram ⟨["a", "b"]⟩ ["a", "b"] false).1 = [(0, 1), (1, 1)] := by
  decide

theorem extract_ab_growth_ix :
    (extract_features .unigram ⟨["a", "b"]⟩ ["a", "b"] true).2 = (⟨["a", "b"]⟩ : Indexer) := by
  decide

theorem p1x_ab (w : List ℝ) :
    p_1_x w .unigram ⟨["a", "b"]⟩ ["a", "b"]
      = Real.exp (w.getD 0 0 + w.getD 1 0) / (1 + Real.exp (w.getD 0 0 + w.getD 1 0)) := by
  unfold p_1_x
  rw [extract_ab_inference]
  simp

theorem lr_predict_zeros_ab :
    lr_predict [0, 0, 0] .unigram ⟨["a", "b"]⟩ ["a", "b"] = 0 := by
  unfold lr_predict
  rw [p1x_ab]
  norm_num [Real.exp_zero]

theorem lrStep_pos_two (k : ExtractorKind) (s : LRState) (ex : SentimentExample)
    (f0 f1 : Nat)
    (hf : (extract_features k s.ix ex.words true).1 = [(f0, 1), (f1, 1)])
    (hlab : ex.label = 1)
    (hpred : lr_predict
        ((s.w ++ List.replicate ((extract_features k s.ix ex.words true).2.size - s.w.length) 0)
          ++ [0])
        k (extract_features k s.ix ex.words true).2 ex.words = 0) :
    (lrExampleStep k s ex).w =
      (let ix2 := (extract_features k s.ix ex.words true).2
       let w1 := (s.w ++ List.replicate (ix2.size - s.w.length) 0) ++ [0]
       let w2 := w1.set f0 (w1.getD f0 0 + lr_alpha * (1 - p_1_x w1 k ix2 ex.words))
       w2.set f1 (w2.getD f1 0 + lr_alpha * (1 - p_1_x w2 k ix2 ex.words))) := by
  simp only [lrExampleStep, hlab, hf, hpred, List.foldl_cons, List.foldl_nil]
  simp

theorem lrStep_neg_two (k : ExtractorKind) (s : LRState) (ex : SentimentExample)
    (f0 f1 : Nat)
    (hf : (extract_features k s.ix ex.words true).1 = [(f0, 1), (f1, 1)])
    (hlab : ex.label = 0)
    (hpred : lr_predict
        ((s.w ++ List.replicate ((extract_features k s.ix ex.words true).2.size - s.w.length) 0)
          ++ [0])
        k (extract_features k s.ix ex.words true).2 ex.words = 1) :
    (lrExampleStep k s ex).w =
      (let ix2 := (extract_features k s.ix ex.words true).2
       let w1 := (s.w ++ List.replicate (ix2.size - s.w.length) 0) ++ [0]
       let w2 := w1.set f0 (w1.getD f0 0 - lr_alpha * (1 - p_1_neg_x w1 k ix2 ex.words))
       w2.set f1 (w2.getD f1 0 - lr_alpha * (1 - p_1_neg_x w2 k ix2 ex.words))) := by
  simp only [lrExampleStep, hlab, hf, hpred, List.foldl_cons, List.foldl_nil]
  simp

/-- C2 counterexample: on the example `["a","b"]` (label 1, both features known,
all weights zero) the code's final weight for the second feature differs from
`alpha * (1 - p_1_x) * count` computed from the pre-update weight vector
`[0,0,0]` — because `p_1_x` is recomputed per feature against the aliased,
already partially updated weight list, the first feature's update shifts the
probability used for the second feature. -/
theorem lr_update_not_precomputed :
    (lrExampleStep .unigram ⟨[0, 0], ⟨["a", "b"]⟩⟩ ⟨["a", "b"], 1⟩).w.getD 1 0
      ≠ lr_alpha * (1 - p_1_x [0, 0, 0] .unigram ⟨["a", "b"]⟩ ["a", "b"]) * 1 := by
  have h := lrStep_pos_two .unigram ⟨[0, 0], ⟨["a", "b"]⟩⟩ ⟨["a", "b"], 1⟩ 0 1 (by decide) rfl
    (by exact lr_predict_zeros_ab)
  rw [h]
  simp only [extract_ab_growth_ix]
  norm_num [Indexer.size, lr_alpha, p1x_ab, Real.exp_zero]
  intro hcontra
  have hpos : (0 : ℝ) < Real.exp (1 / 20) := Real.exp_pos _
  have h1e : (1 : ℝ) + Real.exp (1 / 20) ≠ 0 := by positivity
  have he1 : Real.exp ((1 : ℝ) / 20) = 1 := by
    field_simp at hcontra
    linarith
  have h0 : ((1 : ℝ) / 20) = 0 := by simpa using he1
  norm_num at h0

/-- C2 (amended): in the logistic-regression update for one example with two
active features (each of count 1), `p_1_x` (label 1) resp. `p_1_neg_x` (label 0)
is recomputed for each active feature from the current — already partially
updated — weight vector, and the per-feature increment is
`alpha * (1 - p)` with the freshly recomputed `p` (the count factor is absent
from the code, but every count equals 1). -/
theorem lr_update_recompute :
    (∀ (k : ExtractorKind) (s : LRState) (ex : SentimentExample) (f0 f1 : Nat),
      (extract_features k s.ix ex.words true).1 = [(f0, 1), (f1, 1)] →
      ex.label = 1 →
      lr_predict
        ((s.w ++ List.replicate ((extract_features k s.ix ex.words true).2.size - s.w.length) 0)
          ++ [0]) k (extract_features k s.ix ex.words true).2 ex.words = 0 →
      (lrExampleStep k s ex).w =
        (let ix2 := (extract_features k s.ix ex.words true).2
         let w1 := (s.w ++ List.replicate (ix2.size - s.w.length) 0) ++ [0]
         let w2 := w1.set f0 (w1.getD f0 0 + lr_alpha * (1 - p_1_x w1 k ix2 ex.words))
         w2.set f1 (w2.getD f1 0 + lr_alpha * (1 - p_1_x w2 k ix2 ex.words)))) ∧
    (∀ (k : ExtractorKind) (s : LRState) (ex : SentimentExample) (f0 f1 : Nat),
      (extract_features k s.ix ex.words true).1 = [(f0, 1), (f1, 1)] →
      ex.label = 0 →
      lr_predict
        ((s.w ++ List.replicate ((extract_features k s.ix ex.words true).2.size - s.w.length) 0)
          ++ [0]) k (extract_features k s.ix ex.words true).2 ex.words = 1 →
      (lrExampleStep k s ex).w =
        (let ix2 := (extract_features k s.ix ex.words true).2
         let w1 := (s.w ++ List.replicate (ix2.size - s.w.length) 0) ++ [0]
         let w2 := w1.set f0 (w1.getD f0 0 - lr_alpha * (1 - p_1_neg_x w1 k ix2 ex.words))
         w2.set f1 (w2.getD f1 0 - lr_alpha * (1 - p_1_neg_x w2 k ix2 ex.words)))) :=
  ⟨fun k s ex f0 f1 hf hlab hpred => lrStep_pos_two k s ex f0 f1 hf hlab hpred,
   fun k s ex f0 f1 hf hlab hpred => lrStep_neg_two k s ex f0 f1 hf hlab hpred⟩

/-- C2 witness: the amended recomputation rule instantiated at the concrete
counterexample input. -/
theorem lr_update_recompute_witness :
    (lrExampleStep .unigram ⟨[0, 0], ⟨["a", "b"]⟩⟩ ⟨["a", "b"], 1⟩).w =
      (let ix2 := (extract_features .unigram ⟨["a", "b"]⟩ ["a", "b"] true).2
       let w1 := (([0, 0] : List ℝ) ++ List.replicate (ix2.size - 2) 0) ++ [0]
       let w2 := w1.set 0 (w1.getD 0 0 + lr_alpha * (1 - p_1_x w1 .unigram ix2 ["a", "b"]))
       w2.set 1 (w2.getD 1 0 + lr_alpha * (1 - p_1_x w2 .unigram ix2 ["a", "b"]))) :=
  lr_update_recompute.1 .unigram ⟨[0, 0], ⟨["a", "b"]⟩⟩ ⟨["a", "b"], 1⟩ 0 1 (by decide) rfl
    (by exact lr_predict_zeros_ab)
